import Mathlib

/-
Verification of the Dart completer for ycmd
(ycmd/completers/dart/dart_completer.py).

The development shallowly embeds the pure content of the completer:

* the coordinate translator, lines 319-342 of the source
  (functions ComputeOffset and ComputeLineAndColumn below);
* the blocking protocol read loops of the AnalysisService class,
  lines 75-112 (functions SendRequest, waitForResults and
  SendRequestAndWaitForResults below); the child stdout is modeled as a
  list of already parsed JSON object lines, and the envelope id that the
  Python code allocates from its counter is passed as a parameter.  The
  Python code holds the session RLock for the whole of each call, so at
  most one request is ever inside a read loop at a time;
* the facade helpers: diagnostics conversion (lines 277-302), root and
  priority file registration (lines 210-229, with the filesystem walk
  that resolves the analysis root passed in as the already resolved
  directory parameter), and suggestion ranking (lines 309-317, where the
  in-place Python list sort is modeled by returning the post-call list
  alongside the produced candidates).

Machine integers do not occur; Python integers are modeled as Nat or Int
exactly as the source uses them.  Functions that can fall off the end of
the Python function body (returning None) or raise are modeled with
Option and an explicit Outcome type.
-/

namespace Dart

/-! ## Coordinate translator (source lines 319-342) -/

/-- Loop body of ComputeOffset, source lines 333-339: scan the buffer one
byte at a time, tracking the current position starting from the given
state; return the index where the tracked position equals the target,
and -1 when the scan ends without reaching the target (line 342). -/
def computeOffsetGo (line col curline curcol i : Nat) : List Char → Int
  | [] => -1
  | b :: rest =>
    if curline = line ∧ curcol = col then (i : Int)
    else if b = '\n' then computeOffsetGo line col (curline + 1) 1 (i + 1) rest
    else computeOffsetGo line col curline (curcol + 1) (i + 1) rest

/-- Source function ComputeOffset (underscore prefixed in Python, lines
330-342): byte offset of a (line, column) position, scanning from
position (1, 1); returns the sentinel -1 when the position is never
reached. -/
def ComputeOffset (contents : String) (line col : Nat) : Int :=
  computeOffsetGo line col 1 1 0 contents.data

/-- Loop body of ComputeLineAndColumn, source lines 322-328.  The Python
function has no return statement after the loop, so when the offset is
never reached (offset greater than or equal to the buffer length) the
function returns None, modeled as none. -/
def computeLineColGo (offset curline curcol i : Nat) : List Char → Option (Nat × Nat)
  | [] => none
  | b :: rest =>
    if i = offset then some (curline, curcol)
    else if b = '\n' then computeLineColGo offset (curline + 1) 1 (i + 1) rest
    else computeLineColGo offset curline (curcol + 1) (i + 1) rest

/-- Source function ComputeLineAndColumn (underscore prefixed in Python,
lines 319-328): (line, column) of a byte offset, same scan as
ComputeOffset. -/
def ComputeLineAndColumn (contents : String) (offset : Nat) : Option (Nat × Nat) :=
  computeLineColGo offset 1 1 0 contents.data

/-- Source line 179: RequestData stores the result of ComputeOffset in
its offset attribute without inspecting it, so the -1 sentinel flows on
silently. -/
def requestDataOffset (contents : String) (line col : Nat) : Int :=
  ComputeOffset contents line col

/-- Strict lexicographic order on (line, column) pairs; proof-side helper
used to state that the scan visits strictly increasing positions. -/
def posLt (p q : Nat × Nat) : Prop :=
  p.1 < q.1 ∨ (p.1 = q.1 ∧ p.2 < q.2)

/-! ## Wire values and protocol read loops (source lines 75-112) -/

/-- Parsed JSON values appearing on protocol lines. -/
inductive JVal where
  | str (s : String)
  | num (n : Int)
  | bool (b : Bool)
  | null
  | arr (elems : List JVal)
  | obj (fields : List (String × JVal))

mutual

/-- Structural equality of JSON values, modeling the Python equality
used at source lines 86 and 105.  Object equality is modeled field-list
ordered; the code only ever compares ids, which are scalars. -/
def JVal.beq : JVal → JVal → Bool
  | .str a, .str b => a == b
  | .num a, .num b => a == b
  | .bool a, .bool b => a == b
  | .null, .null => true
  | .arr a, .arr b => JVal.beqArr a b
  | .obj a, .obj b => JVal.beqObj a b
  | _, _ => false

/-- Elementwise equality of JSON arrays. -/
def JVal.beqArr : List JVal → List JVal → Bool
  | [], [] => true
  | x :: xs, y :: ys => JVal.beq x y && JVal.beqArr xs ys
  | _, _ => false

/-- Fieldwise equality of JSON objects. -/
def JVal.beqObj : List (String × JVal) → List (String × JVal) → Bool
  | [], [] => true
  | (k₁, v₁) :: xs, (k₂, v₂) :: ys => k₁ == k₂ && JVal.beq v₁ v₂ && JVal.beqObj xs ys
  | _, _ => false

end

/-- Python truthiness of a JSON value, used by the isLast test at source
line 90. -/
def JVal.truthy : JVal → Bool
  | .str s => s ≠ ""
  | .num n => n ≠ 0
  | .bool b => b
  | .null => false
  | .arr elems => !elems.isEmpty
  | .obj fields => !fields.isEmpty

/-- One parsed JSON object line read from the child stdout. -/
abbrev Msg := List (String × JVal)

/-- Result of running a blocking read loop against a finite list of
lines: a normal return together with the still unread lines, a raised
Exception carrying the error payload of the child (source line 108), an
uncaught KeyError or TypeError on a malformed line, or running out of
lines, which models blocking forever on readline. -/
inductive Outcome (α : Type) where
  | ok (val : α) (rest : List Msg)
  | err (payload : JVal)
  | crash
  | starve

/-- Test of source line 105: the line is an object containing an id field
whose value equals (Python ==) the envelope id string of this request. -/
def isResponseFor (m : Msg) (request_id : String) : Bool :=
  match m.lookup ("id") with
  | some (.str s) => s == request_id
  | _ => false

/-- Read loop of SendRequest (underscore prefixed in Python), source
lines 101-112: keep reading lines; on the first line whose id equals the
envelope id, raise if it has an error field, return its result field if
present, and return None otherwise.  Every other line is consumed and
ignored. -/
def SendRequest (request_id : String) : List Msg → Outcome (Option JVal)
  | [] => .starve
  | m :: rest =>
    if isResponseFor m request_id then
      match m.lookup ("error") with
      | some e => .err e
      | none =>
        match m.lookup ("result") with
        | some r => .ok (some r) rest
        | none => .ok none rest
    else SendRequest request_id rest

/-- Test of source lines 84-85: the line is an object whose event field
equals (Python ==) the requested event name string. -/
def eventMatches (m : Msg) (result_type : String) : Bool :=
  match m.lookup ("event") with
  | some (.str s) => s == result_type
  | _ => false

/-- Read loop of SendRequestAndWaitForResults, source lines 80-91:
accumulate the results arrays of every event line whose event field
equals result_type and whose params id equals result_id, until one of
them has a truthy isLast; lines failing the event or id test are
consumed and ignored; a matching event line without well formed params,
results or isLast raises (KeyError or TypeError). -/
def waitForResults (result_type : String) (result_id : JVal) (acc : List JVal) :
    List Msg → Outcome (List JVal)
  | [] => .starve
  | m :: rest =>
    if eventMatches m result_type then
      match m.lookup ("params") with
      | some (.obj ps) =>
        match ps.lookup ("id") with
        | some v =>
          if JVal.beq v result_id then
            match ps.lookup ("results") with
            | some (.arr rs) =>
              match ps.lookup ("isLast") with
              | some last =>
                if last.truthy then .ok (acc ++ rs) rest
                else waitForResults result_type result_id (acc ++ rs) rest
              | none => .crash
            | _ => .crash
          else waitForResults result_type result_id acc rest
        | none => .crash
      | _ => .crash
    else waitForResults result_type result_id acc rest

/-- Source lines 75-91: SendRequestAndWaitForResults first runs the
SendRequest read loop for the envelope id, then reads the id field of
the returned result object (source line 78; a None or non-object result
makes the subscription raise), and finally runs the accumulation loop
against that id on the remaining lines. -/
def SendRequestAndWaitForResults (request_id result_type : String) (lines : List Msg) :
    Outcome (List JVal) :=
  match SendRequest request_id lines with
  | .ok (some (.obj fs)) rest =>
    match fs.lookup ("id") with
    | some result_id => waitForResults result_type result_id [] rest
    | none => .crash
  | .ok _ _ => .crash
  | .err e => .err e
  | .crash => .crash
  | .starve => .starve

/-- Builder for a well formed response line carrying a result object with
an id field, as the completion.getSuggestions response does; proof-side
input constructor, not part of the source. -/
def respMsg (request_id : String) (stream_id : JVal) : Msg :=
  [("id", JVal.str request_id), ("result", JVal.obj [("id", stream_id)])]

/-- Builder for a well formed event line; proof-side input constructor,
not part of the source. -/
def mkEvent (name : String) (stream_id : JVal) (rs : List JVal) (isLast : Bool) : Msg :=
  [("event", JVal.str name),
   ("params", JVal.obj [("id", stream_id), ("results", JVal.arr rs), ("isLast", JVal.bool isLast)])]

/-- Builder for the event lines of a whole stream: one event per chunk,
isLast false on all but the final one; proof-side input constructor. -/
def eventsOf (name : String) (stream_id : JVal) : List (List JVal) → List Msg
  | [] => []
  | [c] => [mkEvent name stream_id c true]
  | c :: cs => mkEvent name stream_id c false :: eventsOf name stream_id cs

/-! ## Facade: diagnostics conversion (source lines 277-302) -/

/-- Location object of one analysis error, with the fields the source
reads: file, offset, length, startLine, startColumn. -/
structure ErrLocation where
  file : String
  offset : Nat
  length : Nat
  startLine : Nat
  startColumn : Nat
deriving DecidableEq

/-- One entry of the errors array of an analysis.getErrors response. -/
structure AnalysisError where
  location : ErrLocation
  message : String
  severity : String
deriving DecidableEq

/-- A line and column position inside a diagnostic extent. -/
structure DiagPos where
  line_num : Nat
  column_num : Nat
deriving DecidableEq

/-- Primary location of a diagnostic (source lines 283-287). -/
structure DiagLocation where
  line_num : Nat
  column_num : Nat
  filepath : String
deriving DecidableEq

/-- One diagnostic dictionary as built at source lines 282-301; the
location_extent start and end members are the extent_start and
extent_end fields here. -/
structure Diagnostic where
  location : DiagLocation
  extent_start : DiagPos
  extent_end : DiagPos
  ranges : List (DiagPos × DiagPos)
  text : String
  kind : String
deriving DecidableEq

/-- Body of the conversion loop for one error entry, source lines
279-301: the extent end is ComputeLineAndColumn at offset plus length of
the start location; when that scan returns None the Python tuple
unpacking at line 281 raises, so the entry yields none. -/
def diagnosticOfError (contents : String) (error : AnalysisError) : Option Diagnostic :=
  match ComputeLineAndColumn contents (error.location.offset + error.location.length) with
  | some (end_line, end_col) =>
    some
      { location :=
          { line_num := error.location.startLine
            column_num := error.location.startColumn
            filepath := error.location.file }
        extent_start :=
          { line_num := error.location.startLine
            column_num := error.location.startColumn }
        extent_end := { line_num := end_line, column_num := end_col }
        ranges := []
        text := error.message
        kind := error.severity }
  | none => none

/-- Source function GetErrorsResponseToDiagnostics (underscore prefixed
in Python, lines 277-302), taking the errors array of the response: one
diagnostic per error entry, in order; an entry on which the translator
scan falls off the end aborts the whole conversion (the Python function
raises before returning anything). -/
def GetErrorsResponseToDiagnostics (contents : String) :
    List AnalysisError → Option (List Diagnostic)
  | [] => some []
  | e :: es =>
    match diagnosticOfError contents e with
    | some d =>
      match GetErrorsResponseToDiagnostics contents es with
      | some ds => some (d :: ds)
      | none => none
    | none => none

/-! ## Facade: root and priority file registration (source lines 210-229) -/

/-- One request sent to the child by EnsureFileInAnalysisServer; the
excluded list argument of setAnalysisRoots is always empty at source
line 223. -/
inductive ServerSend where
  | setAnalysisRoots (included : List String) (excluded : List String)
  | setPriorityFiles (files : List String)
deriving DecidableEq

/-- The two append-only collections owned by the completer (source lines
191-192). -/
structure CompleterState where
  roots : List String
  priority_files : List String
deriving DecidableEq

/-- Source function EnsureFileInAnalysisServer (underscore prefixed in
Python, lines 210-229).  The filesystem walk of lines 213-219 that
resolves the analysis root is external (os.path), so the resolved
directory is a parameter.  Returns the new state together with the list
of requests sent to the child, in order. -/
def EnsureFileInAnalysisServer (st : CompleterState) (directory filename : String) :
    CompleterState × List ServerSend :=
  let rootsStep :
      List String × List ServerSend :=
    if directory ∈ st.roots then (st.roots, [])
    else (st.roots ++ [directory], [ServerSend.setAnalysisRoots (st.roots ++ [directory]) []])
  let filesStep :
      List String × List ServerSend :=
    if filename ∈ st.priority_files then (st.priority_files, [])
    else (st.priority_files ++ [filename],
          [ServerSend.setPriorityFiles (st.priority_files ++ [filename])])
  ({ roots := rootsStep.1, priority_files := filesStep.1 }, rootsStep.2 ++ filesStep.2)

/-! ## Facade: suggestion ranking (source lines 309-317) -/

/-- One completion suggestion, with the fields the source reads:
relevance, completion, and the optional returnType. -/
structure Suggestion where
  relevance : Int
  completion : String
  returnType : Option String
deriving DecidableEq

/-- One produced candidate dictionary (source lines 313-315):
insertion_text always, extra_menu_info only when the suggestion has a
returnType. -/
structure Candidate where
  insertion_text : String
  extra_menu_info : Option String
deriving DecidableEq

/-- Sort key of source line 311: minus the relevance, sorted ascending. -/
def sortKey (s : Suggestion) : Int := -s.relevance

/-- Stable insertion of one suggestion into an already sorted list: the
new element goes before the first element of equal or larger key, hence
after all earlier arrivals of equal key. -/
def insertSorted (x : Suggestion) : List Suggestion → List Suggestion
  | [] => [x]
  | y :: ys => if sortKey x ≤ sortKey y then x :: y :: ys else y :: insertSorted x ys

/-- Stable sort by sortKey, modeling the Python stable in-place
list.sort of source line 311.  Python timsort is stable; a stable sort
of a given key order is extensionally unique, and stability of this
insertion sort is proved below. -/
def sortSuggestions : List Suggestion → List Suggestion
  | [] => []
  | x :: xs => insertSorted x (sortSuggestions xs)

/-- Projection of one suggestion, source lines 313-315. -/
def candidateOfSuggestion (s : Suggestion) : Candidate :=
  { insertion_text := s.completion, extra_menu_info := s.returnType }

/-- Source function SuggestionsToCandidates (underscore prefixed in
Python, lines 309-317).  The Python function sorts its argument list in
place and returns only the candidate list; the first component here is
the post-call value of the caller-visible list object, the second the
returned candidates. -/
def SuggestionsToCandidates (suggestions : List Suggestion) :
    List Suggestion × List Candidate :=
  let sorted := sortSuggestions suggestions
  (sorted, sorted.map candidateOfSuggestion)

/-! ## Lemmas about the coordinate translator scans -/

theorem computeOffsetGo_le (cs : List Char) :
    ∀ (line col cl cc i j : Nat), computeOffsetGo line col cl cc i cs = (j : Int) → i ≤ j := by
  induction cs with
  | nil =>
    intro line col cl cc i j h
    simp only [computeOffsetGo] at h
    omega
  | cons b rest ih =>
    intro line col cl cc i j h
    simp only [computeOffsetGo] at h
    by_cases hp : cl = line ∧ cc = col
    · rw [if_pos hp] at h
      omega
    · rw [if_neg hp] at h
      by_cases hb : b = '\n'
      · rw [if_pos hb] at h
        have := ih line col (cl + 1) 1 (i + 1) j h
        omega
      · rw [if_neg hb] at h
        have := ih line col cl (cc + 1) (i + 1) j h
        omega

theorem computeOffsetGo_to_lineCol (cs : List Char) :
    ∀ (line col cl cc i j : Nat), computeOffsetGo line col cl cc i cs = (j : Int) →
      computeLineColGo j cl cc i cs = some (line, col) := by
  induction cs with
  | nil =>
    intro line col cl cc i j h
    simp only [computeOffsetGo] at h
    omega
  | cons b rest ih =>
    intro line col cl cc i j h
    simp only [computeOffsetGo] at h
    simp only [computeLineColGo]
    by_cases hp : cl = line ∧ cc = col
    · rw [if_pos hp] at h
      have hij : i = j := by omega
      rw [if_pos hij, hp.1, hp.2]
    · rw [if_neg hp] at h
      by_cases hb : b = '\n'
      · rw [if_pos hb] at h
        have hle := computeOffsetGo_le rest line col (cl + 1) 1 (i + 1) j h
        rw [if_neg (by omega : ¬ i = j), if_pos hb]
        exact ih line col (cl + 1) 1 (i + 1) j h
      · rw [if_neg hb] at h
        have hle := computeOffsetGo_le rest line col cl (cc + 1) (i + 1) j h
        rw [if_neg (by omega : ¬ i = j), if_neg hb]
        exact ih line col cl (cc + 1) (i + 1) j h

theorem computeLineColGo_mono (cs : List Char) :
    ∀ (off cl cc i l c : Nat), computeLineColGo off cl cc i cs = some (l, c) →
      (cl = l ∧ cc = c) ∨ posLt (cl, cc) (l, c) := by
  induction cs with
  | nil =>
    intro off cl cc i l c h
    exact Option.noConfusion h
  | cons b rest ih =>
    intro off cl cc i l c h
    simp only [computeLineColGo] at h
    by_cases hoff : i = off
    · rw [if_pos hoff] at h
      have := Option.some.inj h
      left
      exact ⟨congrArg Prod.fst this, congrArg Prod.snd this⟩
    · rw [if_neg hoff] at h
      by_cases hb : b = '\n'
      · rw [if_pos hb] at h
        rcases ih off (cl + 1) 1 (i + 1) l c h with he | hlt
        · right
          simp only [posLt]
          omega
        · right
          simp only [posLt] at hlt ⊢
          omega
      · rw [if_neg hb] at h
        rcases ih off cl (cc + 1) (i + 1) l c h with he | hlt
        · right
          simp only [posLt]
          omega
        · right
          simp only [posLt] at hlt ⊢
          omega

theorem computeLineColGo_to_offset (cs : List Char) :
    ∀ (off cl cc i l c : Nat), computeLineColGo off cl cc i cs = some (l, c) →
      computeOffsetGo l c cl cc i cs = (off : Int) := by
  induction cs with
  | nil =>
    intro off cl cc i l c h
    exact Option.noConfusion h
  | cons b rest ih =>
    intro off cl cc i l c h
    simp only [computeLineColGo] at h
    simp only [computeOffsetGo]
    by_cases hoff : i = off
    · rw [if_pos hoff] at h
      have := Option.some.inj h
      have hl : cl = l := congrArg Prod.fst this
      have hc : cc = c := congrArg Prod.snd this
      rw [if_pos ⟨hl, hc⟩, hoff]
    · rw [if_neg hoff] at h
      by_cases hb : b = '\n'
      · rw [if_pos hb] at h
        have hne : ¬ (cl = l ∧ cc = c) := by
          rcases computeLineColGo_mono rest off (cl + 1) 1 (i + 1) l c h with he | hlt
          · omega
          · simp only [posLt] at hlt
            omega
        rw [if_neg hne, if_pos hb]
        exact ih off (cl + 1) 1 (i + 1) l c h
      · rw [if_neg hb] at h
        have hne : ¬ (cl = l ∧ cc = c) := by
          rcases computeLineColGo_mono rest off cl (cc + 1) (i + 1) l c h with he | hlt
          · omega
          · simp only [posLt] at hlt
            omega
        rw [if_neg hne, if_neg hb]
        exact ih off cl (cc + 1) (i + 1) l c h

theorem computeLineColGo_total (cs : List Char) :
    ∀ (k cl cc i : Nat), k < cs.length → ∃ p, computeLineColGo (i + k) cl cc i cs = some p := by
  induction cs with
  | nil =>
    intro k cl cc i hk
    simp at hk
  | cons b rest ih =>
    intro k cl cc i hk
    simp only [computeLineColGo]
    match k with
    | 0 =>
      rw [if_pos (by omega : i = i + 0)]
      exact ⟨(cl, cc), rfl⟩
    | k' + 1 =>
      rw [if_neg (by omega : ¬ i = i + (k' + 1))]
      by_cases hb : b = '\n'
      · rw [if_pos hb]
        have := ih k' (cl + 1) 1 (i + 1) (by simp at hk; omega)
        rwa [show i + 1 + k' = i + (k' + 1) by omega] at this
      · rw [if_neg hb]
        have := ih k' cl (cc + 1) (i + 1) (by simp at hk; omega)
        rwa [show i + 1 + k' = i + (k' + 1) by omega] at this

theorem computeOffsetGo_shape (cs : List Char) :
    ∀ (line col cl cc i : Nat), computeOffsetGo line col cl cc i cs = -1 ∨
      ∃ j : Nat, computeOffsetGo line col cl cc i cs = (j : Int) := by
  induction cs with
  | nil =>
    intro line col cl cc i
    left
    rfl
  | cons b rest ih =>
    intro line col cl cc i
    simp only [computeOffsetGo]
    by_cases hp : cl = line ∧ cc = col
    · rw [if_pos hp]
      exact Or.inr ⟨i, rfl⟩
    · rw [if_neg hp]
      by_cases hb : b = '\n'
      · rw [if_pos hb]
        exact ih line col (cl + 1) 1 (i + 1)
      · rw [if_neg hb]
        exact ih line col cl (cc + 1) (i + 1)

/-! ## Claims C2, C3, C4 -/

/-- Claim C2 (corrected), counterexample: on the out of range coordinate
(line 1, column 100) of the five byte buffer hello, ComputeOffset does
not signal an explicit error; it returns the plain integer sentinel -1,
and RequestData (source line 179) stores that sentinel as the request
offset without any check, so a caller consumes it silently. -/
theorem offset_sentinel_cx :
    ComputeOffset ("hello") 1 100 = -1 ∧ requestDataOffset ("hello") 1 100 = -1 :=
  ⟨rfl, rfl⟩

/-- Claim C2 (corrected), amended claim: for every contents and every
(line, column) pair, ComputeOffset returns the sentinel -1 exactly when
no offset of the buffer is at that position, that is, exactly when the
scan never reaches the pair; no explicit error is signalled. -/
theorem ComputeOffset_sentinel_iff_unreachable (contents : String) (line col : Nat) :
    ComputeOffset contents line col = -1 ↔
      ∀ offset, ComputeLineAndColumn contents offset ≠ some (line, col) := by
  constructor
  · intro h offset hsome
    have hoff := computeLineColGo_to_offset contents.data offset 1 1 0 line col hsome
    rw [show computeOffsetGo line col 1 1 0 contents.data = ComputeOffset contents line col
          from rfl, h] at hoff
    omega
  · intro h
    rcases computeOffsetGo_shape contents.data line col 1 1 0 with h1 | ⟨j, hj⟩
    · exact h1
    · exact absurd (computeOffsetGo_to_lineCol contents.data line col 1 1 0 j hj) (h j)

/-- Claim C3 (code_bug): at offset equal to the buffer length (the end
of buffer position the spec requires to be handled), the scan of
ComputeLineAndColumn falls off the end of the Python function body and
returns None instead of the position one past the last byte; the callers
at source lines 281 immediately unpack the result as a tuple, which
raises a TypeError on None. -/
theorem lineColumn_at_buffer_length_none :
    ComputeLineAndColumn ("ab") 2 = none ∧ ("ab" : String).length = 2 :=
  ⟨rfl, rfl⟩

/-- Claim C4 (corrected), counterexample: offset 1 is a valid offset of
the one byte buffer a in the sense of the spec (0 <= offset <= length),
but ComputeLineAndColumn returns no pair there, so the inverse round
trip cannot return this offset. -/
theorem roundtrip_at_length_cx :
    ("a" : String).length = 1 ∧ ComputeLineAndColumn ("a") 1 = none :=
  ⟨rfl, rfl⟩

/-- Claim C4 (corrected), amended claim: for every (line, column) pair
reachable by the byte scan, ComputeOffset returns the unique offset of
that pair and ComputeLineAndColumn maps it back to the pair; conversely,
for every offset strictly inside the buffer (offset < length, excluding
the end of buffer offset where ComputeLineAndColumn returns no pair),
ComputeLineAndColumn yields a pair that ComputeOffset maps back to the
same offset. -/
theorem coordinate_roundtrips :
    (∀ (contents : String) (line col : Nat),
        (∃ i, ComputeLineAndColumn contents i = some (line, col)) →
        ∃ j : Nat, ComputeOffset contents line col = (j : Int) ∧
          ComputeLineAndColumn contents j = some (line, col)) ∧
    (∀ (contents : String) (off : Nat), off < contents.length →
        ∃ l c, ComputeLineAndColumn contents off = some (l, c) ∧
          ComputeOffset contents l c = (off : Int)) := by
  constructor
  · rintro contents line col ⟨i, hi⟩
    exact ⟨i, computeLineColGo_to_offset contents.data i 1 1 0 line col hi, hi⟩
  · intro contents off hoff
    obtain ⟨p, hp⟩ := computeLineColGo_total contents.data off 1 1 0 hoff
    rw [Nat.zero_add] at hp
    obtain ⟨l, c⟩ := p
    exact ⟨l, c, hp, computeLineColGo_to_offset contents.data off 1 1 0 l c hp⟩

/-- Witness for coordinate_roundtrips at the buffer with two lines: the
pair (2, 1) is reachable at offset 3 of the buffer, and offset 1 is
strictly inside it. -/
theorem coordinate_roundtrips_witness :
    (∃ j : Nat, ComputeOffset ("ab\nc") 2 1 = (j : Int) ∧
      ComputeLineAndColumn ("ab\nc") j = some (2, 1)) ∧
    (∃ l c, ComputeLineAndColumn ("ab\nc") 1 = some (l, c) ∧
      ComputeOffset ("ab\nc") l c = ((1 : Nat) : Int)) :=
  ⟨coordinate_roundtrips.1 ("ab\nc") 2 1 ⟨3, rfl⟩,
   coordinate_roundtrips.2 ("ab\nc") 1 (by decide)⟩

/-! ## Lemmas about the protocol read loops -/

theorem isResponseFor_respMsg (rid : String) (cid : JVal) :
    isResponseFor (respMsg rid cid) rid = true := by
  simp [isResponseFor, respMsg, List.lookup]

theorem sendRequest_respMsg (rid : String) (cid : JVal) (rest : List Msg) :
    SendRequest rid (respMsg rid cid :: rest) =
      Outcome.ok (some (JVal.obj [("id", cid)])) rest := by
  simp [SendRequest, isResponseFor, respMsg, List.lookup]

theorem waitForResults_mkEvent (T sid : String) (acc rs : List JVal) (last : Bool)
    (ls : List Msg) :
    waitForResults T (JVal.str sid) acc (mkEvent T (JVal.str sid) rs last :: ls) =
      if last then Outcome.ok (acc ++ rs) ls
      else waitForResults T (JVal.str sid) (acc ++ rs) ls := by
  cases last <;>
    simp [waitForResults, eventMatches, mkEvent, List.lookup, JVal.beq, JVal.truthy]

theorem waitForResults_eventsOf (T sid : String) :
    ∀ (chunks : List (List JVal)) (acc : List JVal), chunks ≠ [] →
      waitForResults T (JVal.str sid) acc (eventsOf T (JVal.str sid) chunks) =
        Outcome.ok (acc ++ chunks.flatten) [] := by
  intro chunks
  induction chunks with
  | nil => exact fun acc h => absurd rfl h
  | cons c cs ih =>
    intro acc _
    cases cs with
    | nil =>
      rw [show eventsOf T (JVal.str sid) [c] = [mkEvent T (JVal.str sid) c true] from rfl,
          waitForResults_mkEvent]
      simp
    | cons c₂ cs₂ =>
      rw [show eventsOf T (JVal.str sid) (c :: c₂ :: cs₂) =
            mkEvent T (JVal.str sid) c false :: eventsOf T (JVal.str sid) (c₂ :: cs₂) from rfl,
          waitForResults_mkEvent]
      simp only [Bool.false_eq_true, if_false]
      rw [ih (acc ++ c) (List.cons_ne_nil c₂ cs₂)]
      simp [List.append_assoc]

theorem waitForResults_allFalse (T sid : String) :
    ∀ (chunks : List (List JVal)) (acc : List JVal),
      waitForResults T (JVal.str sid) acc
        (chunks.map fun c => mkEvent T (JVal.str sid) c false) = Outcome.starve := by
  intro chunks
  induction chunks with
  | nil => exact fun acc => rfl
  | cons c cs ih =>
    intro acc
    rw [List.map_cons, waitForResults_mkEvent]
    simp only [Bool.false_eq_true, if_false]
    exact ih (acc ++ c)

theorem sendRequestAndWait_respMsg (rid T : String) (cid : JVal) (ls : List Msg) :
    SendRequestAndWaitForResults rid T (respMsg rid cid :: ls) =
      waitForResults T cid [] ls := by
  simp [SendRequestAndWaitForResults, sendRequest_respMsg, List.lookup]

/-! ## Claims C1, C5, C6 -/

/-- Claim C1 (corrected), counterexample: with request 1 awaited, the
wire delivers first the well formed response for request 2, then the
response for request 1.  The read loop resolves request 1 with its own
result, but it has consumed the response for request 2 and discarded it:
the remaining stream after the call is empty, so a read loop run for
request 2 afterwards finds nothing and blocks forever.  The response for
the other pending request is dropped, not routed to its waiter: the code
has no pending-request map and no routing step. -/
theorem interleaved_response_dropped_cx :
    SendRequest ("1")
        [[("id", JVal.str ("2")), ("result", JVal.str ("B"))],
         [("id", JVal.str ("1")), ("result", JVal.str ("A"))]] =
      Outcome.ok (some (JVal.str ("A"))) [] ∧
    SendRequest ("2") [] = Outcome.starve :=
  ⟨rfl, rfl⟩

/-- Claim C1 (corrected), amended claim: the read loop of SendRequest is
private to one call, not shared routing infrastructure: a line that is
not a response carrying the awaited id — including a well formed
response to a different request id — is consumed and discarded, with no
observable effect on the result or on the rest of the stream seen by any
later reader.  (Cross delivery between two concurrently pending requests
cannot arise in the source for a second reason as well: the session
RLock is held for the whole send-and-read of every request, so two
requests are never pending at once.) -/
theorem sendRequest_skips_foreign_line (request_id : String) (m : Msg) (lines : List Msg)
    (h : isResponseFor m request_id = false) :
    SendRequest request_id (m :: lines) = SendRequest request_id lines := by
  simp [SendRequest, h]

/-- Witness for sendRequest_skips_foreign_line: the response for id 2 is
skipped by the loop awaiting id 1. -/
theorem sendRequest_skips_foreign_line_witness :
    isResponseFor [("id", JVal.str ("2")), ("result", JVal.str ("B"))] ("1") = false ∧
    SendRequest ("1")
        ([("id", JVal.str ("2")), ("result", JVal.str ("B"))] ::
          [[("id", JVal.str ("1")), ("result", JVal.str ("A"))]]) =
      SendRequest ("1") [[("id", JVal.str ("1")), ("result", JVal.str ("A"))]] :=
  ⟨rfl, sendRequest_skips_foreign_line ("1") _ _ rfl⟩

/-- Claim C6 (confirmed): when the first line whose id equals the sent
request id arrives (after any number of non matching lines), SendRequest
splits three ways: a response with an error field raises, carrying the
error payload of the child verbatim; otherwise a response with a result
field returns that result; otherwise the bare response returns None. -/
theorem response_three_way_split (request_id : String) (pre : List Msg) (m : Msg)
    (rest : List Msg)
    (hpre : ∀ p ∈ pre, isResponseFor p request_id = false)
    (hm : isResponseFor m request_id = true) :
    SendRequest request_id (pre ++ m :: rest) =
      match m.lookup ("error") with
      | some e => Outcome.err e
      | none =>
        match m.lookup ("result") with
        | some r => Outcome.ok (some r) rest
        | none => Outcome.ok none rest := by
  induction pre with
  | nil =>
    simp [SendRequest, hm]
  | cons p ps ih =>
    rw [List.cons_append,
        sendRequest_skips_foreign_line request_id p _ (hpre p (List.mem_cons_self p ps))]
    exact ih fun q hq => hpre q (List.mem_cons_of_mem p hq)

/-- Witness for response_three_way_split: after a non matching line, the
matching response carries an error field, and the loop raises with that
payload verbatim. -/
theorem response_three_way_split_witness :
    SendRequest ("1")
        [[("id", JVal.str ("9"))],
         [("id", JVal.str ("1")), ("error", JVal.str ("boom"))]] =
      Outcome.err (JVal.str ("boom")) :=
  response_three_way_split ("1") [[("id", JVal.str ("9"))]]
    [("id", JVal.str ("1")), ("error", JVal.str ("boom"))] []
    (by
      intro p hp
      rw [List.mem_singleton] at hp
      subst hp
      rfl)
    rfl

/-- Claim C5 (corrected), counterexample: the envelope id of the request
is 1 and the child answers with a result whose embedded id is 0.  A well
formed event line whose params id equals the request id 1 — as the claim
as stated demands — is ignored by the accumulation loop, which compares
against the id 0 taken from the response result (source line 78), so the
call never resolves instead of returning the results of that event. -/
theorem stream_id_mismatch_cx :
    SendRequestAndWaitForResults ("1") ("completion.results")
        [respMsg ("1") (JVal.str ("0")),
         mkEvent ("completion.results") (JVal.str ("1")) [JVal.str ("x")] true] =
      Outcome.starve :=
  rfl

/-- Claim C5 (corrected), amended claim: the accumulation loop matches
event lines against the id embedded in the result object of the initial
response (result id, source line 78), not against the envelope id of the
request.  For event messages carrying that id whose isLast flags are
false, ..., false, true, the call returns the concatenation of all their
results arrays in arrival order; with no true flag the call never
resolves. -/
theorem stream_accumulates_results (rid T sid : String) (chunks : List (List JVal))
    (h : chunks ≠ []) :
    SendRequestAndWaitForResults rid T
        (respMsg rid (JVal.str sid) :: eventsOf T (JVal.str sid) chunks) =
      Outcome.ok chunks.flatten [] ∧
    SendRequestAndWaitForResults rid T
        (respMsg rid (JVal.str sid) :: chunks.map fun c => mkEvent T (JVal.str sid) c false) =
      Outcome.starve := by
  constructor
  · rw [sendRequestAndWait_respMsg, waitForResults_eventsOf T sid chunks [] h]
    simp
  · rw [sendRequestAndWait_respMsg]
    exact waitForResults_allFalse T sid chunks []

/-- Witness for stream_accumulates_results: three event messages with
isLast false, false, true accumulate their three results arrays in
arrival order; the same three with no true flag never resolve. -/
theorem stream_accumulates_results_witness :
    SendRequestAndWaitForResults ("7") ("completion.results")
        (respMsg ("7") (JVal.str ("0")) ::
          eventsOf ("completion.results") (JVal.str ("0"))
            [[JVal.str ("a")], [JVal.str ("b")], [JVal.str ("c")]]) =
      Outcome.ok [JVal.str ("a"), JVal.str ("b"), JVal.str ("c")] [] ∧
    SendRequestAndWaitForResults ("7") ("completion.results")
        (respMsg ("7") (JVal.str ("0")) ::
          [[JVal.str ("a")], [JVal.str ("b")], [JVal.str ("c")]].map
            fun c => mkEvent ("completion.results") (JVal.str ("0")) c false) =
      Outcome.starve :=
  stream_accumulates_results ("7") ("completion.results") ("0")
    [[JVal.str ("a")], [JVal.str ("b")], [JVal.str ("c")]]
    (List.cons_ne_nil _ _)

/-! ## Claims C7, C8 -/

/-- Claim C7 (corrected), counterexample: a well formed report with one
entry whose error region ends exactly at the end of the buffer (offset 0,
length 2 in the two byte buffer ab) makes the translator scan return no
pair, so the Python conversion raises at line 281 (the C3 defect) and
returns nothing at all: no diagnostic is produced for the entry,
refuting the claim for every contents and every report. -/
theorem diagnostics_entry_at_eof_cx :
    GetErrorsResponseToDiagnostics ("ab")
        [{ location := { file := ("/f.dart"), offset := 0, length := 2,
                         startLine := 1, startColumn := 1 },
           message := ("x"), severity := ("ERROR") }] = none :=
  rfl

/-- Claim C7 (corrected), amended claim: for every contents and every
report all of whose entries end strictly inside the buffer (offset plus
length smaller than the buffer length), the conversion succeeds and
yields exactly one diagnostic per error entry, in the same order,
preserving message and severity, with an empty ranges list, start taken
from the startLine and startColumn fields of the entry, and the extent
end computed by applying the coordinate translator to offset plus length
of the entry location; an entry ending at or past the end of the buffer
aborts the whole conversion with no result (the C3 defect). -/
theorem diagnostics_conversion_in_range (contents : String) :
    ∀ errors : List AnalysisError,
      (∀ e ∈ errors, e.location.offset + e.location.length < contents.length) →
      ∃ ds, GetErrorsResponseToDiagnostics contents errors = some ds ∧
        List.Forall₂ (fun e d =>
          d.text = e.message ∧ d.kind = e.severity ∧ d.ranges = [] ∧
          d.location = { line_num := e.location.startLine,
                         column_num := e.location.startColumn,
                         filepath := e.location.file } ∧
          d.extent_start = { line_num := e.location.startLine,
                             column_num := e.location.startColumn } ∧
          ComputeLineAndColumn contents (e.location.offset + e.location.length) =
            some (d.extent_end.line_num, d.extent_end.column_num)) errors ds := by
  intro errors
  induction errors with
  | nil => exact fun _ => ⟨[], rfl, List.Forall₂.nil⟩
  | cons e es ih =>
    intro h
    obtain ⟨p, hp⟩ := computeLineColGo_total contents.data
      (e.location.offset + e.location.length) 1 1 0 (h e (List.mem_cons_self e es))
    rw [Nat.zero_add] at hp
    obtain ⟨el, ec⟩ := p
    have hp₂ : ComputeLineAndColumn contents (e.location.offset + e.location.length) =
        some (el, ec) := hp
    obtain ⟨ds, hds, hall⟩ := ih fun q hq => h q (List.mem_cons_of_mem e hq)
    refine ⟨{ location := { line_num := e.location.startLine,
                            column_num := e.location.startColumn,
                            filepath := e.location.file },
              extent_start := { line_num := e.location.startLine,
                                column_num := e.location.startColumn },
              extent_end := { line_num := el, column_num := ec },
              ranges := [], text := e.message, kind := e.severity } :: ds, ?_, ?_⟩
    · simp only [GetErrorsResponseToDiagnostics, diagnosticOfError, hp₂, hds]
    · exact List.Forall₂.cons ⟨rfl, rfl, rfl, rfl, rfl, hp₂⟩ hall

/-- Witness for diagnostics_conversion_in_range on the example of the
spec: contents of two lines (twelve bytes), one error at offset 6 with
length 5, ending strictly inside the buffer; the conversion succeeds and
the produced diagnostic spans line 2 column 1 to line 2 column 6. -/
theorem diagnostics_conversion_in_range_witness :
    GetErrorsResponseToDiagnostics ("line1\nline2\n")
        [{ location := { file := ("/f.dart"), offset := 6, length := 5,
                         startLine := 2, startColumn := 1 },
           message := ("x"), severity := ("ERROR") }] =
      some [{ location := { line_num := 2, column_num := 1, filepath := ("/f.dart") },
              extent_start := { line_num := 2, column_num := 1 },
              extent_end := { line_num := 2, column_num := 6 },
              ranges := [], text := ("x"), kind := ("ERROR") }] ∧
    (∃ ds, GetErrorsResponseToDiagnostics ("line1\nline2\n")
        [{ location := { file := ("/f.dart"), offset := 6, length := 5,
                         startLine := 2, startColumn := 1 },
           message := ("x"), severity := ("ERROR") }] = some ds ∧
      List.Forall₂ (fun (e : AnalysisError) (d : Diagnostic) =>
          d.text = e.message ∧ d.kind = e.severity ∧ d.ranges = [] ∧
          d.location = { line_num := e.location.startLine,
                         column_num := e.location.startColumn,
                         filepath := e.location.file } ∧
          d.extent_start = { line_num := e.location.startLine,
                             column_num := e.location.startColumn } ∧
          ComputeLineAndColumn ("line1\nline2\n")
              (e.location.offset + e.location.length) =
            some (d.extent_end.line_num, d.extent_end.column_num))
        [{ location := { file := ("/f.dart"), offset := 6, length := 5,
                         startLine := 2, startColumn := 1 },
           message := ("x"), severity := ("ERROR") }] ds) :=
  ⟨rfl,
   diagnostics_conversion_in_range ("line1\nline2\n")
     [{ location := { file := ("/f.dart"), offset := 6, length := 5,
                      startLine := 2, startColumn := 1 },
        message := ("x"), severity := ("ERROR") }]
     (by
       intro e he
       rw [List.mem_singleton] at he
       subst he
       decide)⟩

/-- Claim C8 (confirmed): registering a resolved root and file not yet
present appends each once and sends the new root set and priority file
set, each containing exactly one copy of the new entry; a second
registration of the same root and file changes nothing and sends
nothing. -/
theorem ensureFile_idempotent (st : CompleterState) (d f : String)
    (hd : d ∉ st.roots) (hf : f ∉ st.priority_files) :
    EnsureFileInAnalysisServer st d f =
      ({ roots := st.roots ++ [d], priority_files := st.priority_files ++ [f] },
        [ServerSend.setAnalysisRoots (st.roots ++ [d]) [],
         ServerSend.setPriorityFiles (st.priority_files ++ [f])]) ∧
    EnsureFileInAnalysisServer (EnsureFileInAnalysisServer st d f).1 d f =
      ((EnsureFileInAnalysisServer st d f).1, []) ∧
    (st.roots ++ [d]).count d = 1 ∧
    (st.priority_files ++ [f]).count f = 1 := by
  have h1 : EnsureFileInAnalysisServer st d f =
      ({ roots := st.roots ++ [d], priority_files := st.priority_files ++ [f] },
        [ServerSend.setAnalysisRoots (st.roots ++ [d]) [],
         ServerSend.setPriorityFiles (st.priority_files ++ [f])]) := by
    simp [EnsureFileInAnalysisServer, hd, hf]
  refine ⟨h1, ?_, ?_, ?_⟩
  · rw [h1]
    simp [EnsureFileInAnalysisServer]
  · rw [List.count_append, List.count_eq_zero_of_not_mem hd]
    simp
  · rw [List.count_append, List.count_eq_zero_of_not_mem hf]
    simp

/-- Witness for ensureFile_idempotent starting from the empty session
state. -/
theorem ensureFile_idempotent_witness :
    EnsureFileInAnalysisServer { roots := [], priority_files := [] }
        ("/proj") ("/proj/main.dart") =
      ({ roots := [("/proj")], priority_files := [("/proj/main.dart")] },
        [ServerSend.setAnalysisRoots ([("/proj")]) [],
         ServerSend.setPriorityFiles ([("/proj/main.dart")])]) ∧
    EnsureFileInAnalysisServer
        (EnsureFileInAnalysisServer { roots := [], priority_files := [] }
          ("/proj") ("/proj/main.dart")).1 ("/proj") ("/proj/main.dart") =
      ((EnsureFileInAnalysisServer { roots := [], priority_files := [] }
          ("/proj") ("/proj/main.dart")).1, []) ∧
    (([] : List String) ++ [("/proj")]).count ("/proj") = 1 ∧
    (([] : List String) ++ [("/proj/main.dart")]).count ("/proj/main.dart") = 1 :=
  ensureFile_idempotent { roots := [], priority_files := [] }
    ("/proj") ("/proj/main.dart") (by simp) (by simp)

/-! ## Lemmas about the suggestion sort -/

theorem insertSorted_perm (x : Suggestion) (l : List Suggestion) :
    List.Perm (insertSorted x l) (x :: l) := by
  induction l with
  | nil => exact List.Perm.refl [x]
  | cons y ys ih =>
    simp only [insertSorted]
    by_cases h : sortKey x ≤ sortKey y
    · rw [if_pos h]
    · rw [if_neg h]
      exact (List.Perm.cons y ih).trans (List.Perm.swap x y ys)

theorem sortSuggestions_perm (l : List Suggestion) :
    List.Perm (sortSuggestions l) l := by
  induction l with
  | nil => exact List.Perm.refl []
  | cons x xs ih =>
    exact (insertSorted_perm x (sortSuggestions xs)).trans (List.Perm.cons x ih)

theorem pairwise_insertSorted (x : Suggestion) (l : List Suggestion)
    (hl : l.Pairwise fun a b => b.relevance ≤ a.relevance) :
    (insertSorted x l).Pairwise fun a b => b.relevance ≤ a.relevance := by
  induction l with
  | nil => simp [insertSorted]
  | cons y ys ih =>
    rw [List.pairwise_cons] at hl
    obtain ⟨hy, hys⟩ := hl
    simp only [insertSorted]
    by_cases h : sortKey x ≤ sortKey y
    · rw [if_pos h]
      refine List.Pairwise.cons ?_ (List.Pairwise.cons hy hys)
      intro z hz
      rcases List.mem_cons.mp hz with rfl | hz₂
      · simp only [sortKey] at h
        omega
      · have := hy z hz₂
        simp only [sortKey] at h
        omega
    · rw [if_neg h]
      refine List.Pairwise.cons ?_ (ih hys)
      intro z hz
      have hz₂ := (insertSorted_perm x ys).mem_iff.mp hz
      rcases List.mem_cons.mp hz₂ with rfl | hz₃
      · simp only [sortKey] at h
        omega
      · exact hy z hz₃

theorem pairwise_sortSuggestions (l : List Suggestion) :
    (sortSuggestions l).Pairwise fun a b => b.relevance ≤ a.relevance := by
  induction l with
  | nil => simp [sortSuggestions]
  | cons x xs ih => exact pairwise_insertSorted x (sortSuggestions xs) ih

theorem filter_insertSorted_of_eq (x : Suggestion) (l : List Suggestion) (r : Int)
    (hx : x.relevance = r) :
    (insertSorted x l).filter (fun s => s.relevance == r) =
      x :: l.filter (fun s => s.relevance == r) := by
  induction l with
  | nil => simp [insertSorted, List.filter, hx]
  | cons y ys ih =>
    simp only [insertSorted]
    by_cases h : sortKey x ≤ sortKey y
    · rw [if_pos h]
      simp [List.filter_cons, hx]
    · rw [if_neg h]
      have hy : ¬ y.relevance = r := by
        simp only [sortKey] at h
        omega
      simp [List.filter_cons, hy, ih]

theorem filter_insertSorted_of_ne (x : Suggestion) (l : List Suggestion) (r : Int)
    (hx : ¬ x.relevance = r) :
    (insertSorted x l).filter (fun s => s.relevance == r) =
      l.filter (fun s => s.relevance == r) := by
  have hxf : (x.relevance == r) = false := by
    simp [hx]
  induction l with
  | nil => simp [insertSorted, List.filter, hxf]
  | cons y ys ih =>
    simp only [insertSorted]
    by_cases h : sortKey x ≤ sortKey y
    · rw [if_pos h]
      simp [List.filter_cons, hx]
    · rw [if_neg h]
      simp [List.filter_cons, ih]

theorem filter_sortSuggestions (l : List Suggestion) (r : Int) :
    (sortSuggestions l).filter (fun s => s.relevance == r) =
      l.filter (fun s => s.relevance == r) := by
  induction l with
  | nil => rfl
  | cons x xs ih =>
    simp only [sortSuggestions]
    by_cases hx : x.relevance = r
    · rw [filter_insertSorted_of_eq x _ r hx, ih]
      simp [List.filter_cons, hx]
    · rw [filter_insertSorted_of_ne x _ r hx, ih]
      simp [List.filter_cons, hx]

/-! ## Claims C9, C10 -/

/-- Claim C9 (confirmed): the produced candidates are the projections
(insertion text plus optional return type, candidateOfSuggestion) of the
suggestions sorted by weakly descending relevance; the sorted list is a
permutation of the input, equal-relevance suggestions keep their arrival
order (the filter at every relevance value is unchanged), and on the
example of the spec the insertion texts come out b, a, c. -/
theorem suggestions_sorted_stable_projected :
    (∀ suggestions : List Suggestion,
        (SuggestionsToCandidates suggestions).2 =
          (sortSuggestions suggestions).map candidateOfSuggestion ∧
        List.Perm (sortSuggestions suggestions) suggestions ∧
        (sortSuggestions suggestions).Pairwise
          (fun a b => b.relevance ≤ a.relevance) ∧
        ∀ r : Int,
          (sortSuggestions suggestions).filter (fun s => s.relevance == r) =
            suggestions.filter (fun s => s.relevance == r)) ∧
    ((SuggestionsToCandidates
        [{ relevance := 1, completion := ("a"), returnType := none },
         { relevance := 3, completion := ("b"), returnType := none },
         { relevance := 1, completion := ("c"), returnType := none }]).2.map
      (fun c => c.insertion_text) = [("b"), ("a"), ("c")]) :=
  ⟨fun s =>
    ⟨rfl, sortSuggestions_perm s, pairwise_sortSuggestions s,
     fun r => filter_sortSuggestions s r⟩,
   by decide⟩

/-- Claim C10 (confirmed): SuggestionsToCandidates reorders the caller
list in place; the post-call value of the argument list (first
component of the model) is the input permuted into weakly descending
relevance order, and on the example of the spec it differs from the
input order, even though only the candidate list is handed back. -/
theorem suggestions_list_mutated :
    (∀ suggestions : List Suggestion,
        (SuggestionsToCandidates suggestions).1 = sortSuggestions suggestions ∧
        List.Perm (SuggestionsToCandidates suggestions).1 suggestions ∧
        (SuggestionsToCandidates suggestions).1.Pairwise
          (fun a b => b.relevance ≤ a.relevance)) ∧
    (SuggestionsToCandidates
        [{ relevance := 1, completion := ("a"), returnType := none },
         { relevance := 3, completion := ("b"), returnType := none },
         { relevance := 1, completion := ("c"), returnType := none }]).1 ≠
      [{ relevance := 1, completion := ("a"), returnType := none },
       { relevance := 3, completion := ("b"), returnType := none },
       { relevance := 1, completion := ("c"), returnType := none }] :=
  ⟨fun s =>
    ⟨rfl, sortSuggestions_perm s, pairwise_sortSuggestions s⟩,
   by decide⟩

end Dart
